import Mathlib

/-!
# Verification of the VFX market-pulse backend pipeline

Shallow embedding of the logic-bearing parts of the repository:

* `src/scrapers/backstage.js` — the VFX-needs classifier (`classifyVFXNeeds`),
  the budget-tier heuristic (`determineTier`) and the per-batch processing loop
  of `scrape`;
* `src/server.js` — the title-keyed merge loop, the source-status update
  (`updateSourceStatus`) and the `POST /api/scrape/:source` handler.

JavaScript numbers are modelled by `JsFloat`: `NaN`, `±Infinity`, or a finite
value represented exactly as an unnormalized decimal `num / 10 ^ exp`
(`Dec10`).  Every numeric comparison performed by the embedded code happens
far below the magnitudes where IEEE-754 double rounding could change a
comparison against the tier thresholds, so the exact decimal model is
observationally equivalent for the functions embedded here.  JS `undefined`
is modelled by `Option`, a thrown exception by `Except.error`.
-/

/-- An exact decimal number `num / 10 ^ exp` (unnormalized). -/
structure Dec10 where
  num : Int
  exp : Nat
deriving DecidableEq, Repr

/-- The rational value denoted by a `Dec10`. -/
def Dec10.toRat (d : Dec10) : ℚ :=
  (d.num : ℚ) / (10 : ℚ) ^ d.exp

/-- A JavaScript number as used by `determineTier`: `NaN`, `±Infinity` or a
finite value. -/
inductive JsFloat where
  | nan : JsFloat
  | inf : JsFloat
  | negInf : JsFloat
  | val : Dec10 → JsFloat
deriving DecidableEq, Repr

/-- JS `x >= c` for an integer threshold `c`: false on `NaN`, true on
`Infinity`, false on `-Infinity`; on a finite value `num / 10 ^ exp` it is
`c * 10 ^ exp ≤ num`. -/
def JsFloat.geq : JsFloat → Int → Bool
  | .nan, _ => false
  | .inf, _ => true
  | .negInf, _ => false
  | .val d, c => decide (c * (10 : Int) ^ d.exp ≤ d.num)

/-- JS multiplication of a parsed number by a positive integer constant
(`parseFloat(...) * 1000` or `* 1`). -/
def JsFloat.mulPos : JsFloat → Int → JsFloat
  | .nan, _ => .nan
  | .inf, k => if 0 < k then .inf else if k < 0 then .negInf else .nan
  | .negInf, k => if 0 < k then .negInf else if k < 0 then .inf else .nan
  | .val d, k => .val ⟨d.num * k, d.exp⟩

/-- The white-space code points skipped by JS `parseFloat` (ECMAScript
*StrWhiteSpaceChar*: WhiteSpace and LineTerminator). -/
def jsIsWhitespace (c : Char) : Bool :=
  c = ' ' ∨ c = '\t' ∨ c = '\n' ∨ c = '\r' ∨ c = '\x0b' ∨ c = '\x0c' ∨
  c = ' ' ∨ c = ' ' ∨ (' ' ≤ c ∧ c ≤ ' ') ∨
  c = ' ' ∨ c = ' ' ∨ c = ' ' ∨ c = ' ' ∨
  c = '　' ∨ c = '﻿'

/-- Numeric value of a list of decimal digit characters (most significant
first), as read by `parseFloat`. -/
def digitsToNat (ds : List Char) : Nat :=
  ds.foldl (fun a c => 10 * a + (c.toNat - 48)) 0

/-- Apply a decimal exponent with the given sign to a mantissa, when the
exponent digits are present; `none` when they are absent (so the exponent
marker is not part of the longest valid numeric prefix). -/
def applyExpAux (m : Dec10) (neg : Bool) (cs : List Char) : Option Dec10 :=
  let ds := cs.takeWhile Char.isDigit
  if ds.isEmpty then none
  else if neg then some ⟨m.num, m.exp + digitsToNat ds⟩
  else some ⟨m.num * (10 : Int) ^ digitsToNat ds, m.exp⟩

/-- Consume an optional *ExponentPart* (`e`/`E`, optional sign, digits) after
the mantissa; an incomplete exponent is ignored, as in `parseFloat`. -/
def applyExp (m : Dec10) (cs : List Char) : Dec10 :=
  match cs with
  | c :: rest =>
    if c = 'e' ∨ c = 'E' then
      match rest with
      | '+' :: r => (applyExpAux m false r).getD m
      | '-' :: r => (applyExpAux m true r).getD m
      | r => (applyExpAux m false r).getD m
    else m
  | [] => m

/-- Value of a mantissa `intDigits . fracDigits` as an exact decimal. -/
def mantissaVal (intDigits fracDigits : List Char) : Dec10 :=
  ⟨(digitsToNat intDigits : Int) * (10 : Int) ^ fracDigits.length +
    (digitsToNat fracDigits : Int), fracDigits.length⟩

/-- Parse the finite *StrUnsignedDecimalLiteral* forms
`digits [. digits] [exp]` and `. digits [exp]` at the head of the input;
`none` when no such prefix exists. -/
def jsParseAfterSign (cs : List Char) : Option Dec10 :=
  match cs with
  | '.' :: rest =>
    let ds := rest.takeWhile Char.isDigit
    if ds.isEmpty then none
    else some (applyExp (mantissaVal [] ds) (rest.dropWhile Char.isDigit))
  | _ =>
    let ds := cs.takeWhile Char.isDigit
    if ds.isEmpty then none
    else
      match cs.dropWhile Char.isDigit with
      | '.' :: rest =>
        some (applyExp (mantissaVal ds (rest.takeWhile Char.isDigit))
          (rest.dropWhile Char.isDigit))
      | rest => some (applyExp (mantissaVal ds []) rest)

/-- The character sequence of the literal `Infinity` accepted by
`parseFloat`. -/
def infinityChars : List Char := ['I', 'n', 'f', 'i', 'n', 'i', 't', 'y']

/-- JS `parseFloat`: skip leading white space, then read the longest prefix
that is a signed decimal literal or (signed) `Infinity`; `NaN` when there is
none. -/
def jsParseFloat (s : String) : JsFloat :=
  match s.data.dropWhile jsIsWhitespace with
  | '+' :: rest =>
    if infinityChars.isPrefixOf rest then .inf
    else
      match jsParseAfterSign rest with
      | some d => .val d
      | none => .nan
  | '-' :: rest =>
    if infinityChars.isPrefixOf rest then .negInf
    else
      match jsParseAfterSign rest with
      | some d => .val ⟨-d.num, d.exp⟩
      | none => .nan
  | rest =>
    if infinityChars.isPrefixOf rest then .inf
    else
      match jsParseAfterSign rest with
      | some d => .val d
      | none => .nan

/-- `budget.replace(/[$,K]/g, '')` — drop every `$`, `,` and `K`
(`backstage.js` line 36). -/
def stripBudget (s : String) : String :=
  ⟨s.data.filter (fun c => ¬(c = '$' ∨ c = ',' ∨ c = 'K'))⟩

/-- `budget.includes('M')` (`backstage.js` line 36). -/
def includesM (s : String) : Bool :=
  s.data.contains 'M'

/-- The numeric amount computed on `backstage.js` line 36:
`parseFloat(budget.replace(/[$,K]/g, '')) * (budget.includes('M') ? 1000 : 1)`. -/
def budgetAmount (b : String) : JsFloat :=
  (jsParseFloat (stripBudget b)).mulPos (if includesM b then 1000 else 1)

/-- `determineTier` (`backstage.js` lines 33–42).  A JS-`undefined` budget is
`none`; `!budget` is true exactly on `undefined`/`""` here. -/
def determineTier (budget : Option String) : String :=
  match budget with
  | none => "tier3"
  | some b =>
    if b = "" ∨ b = "TBD" then "tier3"
    else
      let amount := budgetAmount b
      if amount.geq 10000 then "tier1"
      else if amount.geq 1000 then "tier2"
      else if amount.geq 100 then "tier3"
      else "tier4"


/-- Does `l` contain `pat` as a contiguous subsequence?  (JS
`String.prototype.includes` over the character lists.) -/
def containsSeq (pat : List Char) : List Char → Bool
  | [] => pat.isEmpty
  | c :: rest => pat.isPrefixOf (c :: rest) || containsSeq pat rest

/-- JS `text.includes(kw)`. -/
def strIncludes (text kw : String) : Bool :=
  containsSeq kw.data text.data

/-- `extremeKeywords` (`backstage.js` line 10). -/
def extremeKeywords : List String :=
  ["extensive vfx", "heavy vfx", "full cgi", "green screen", "500+ shots", "creature work"]

/-- `highKeywords` (`backstage.js` line 11). -/
def highKeywords : List String :=
  ["vfx supervisor", "vfx heavy", "visual effects", "cgi", "compositing", "200+ shots"]

/-- `mediumKeywords` (`backstage.js` line 12). -/
def mediumKeywords : List String :=
  ["vfx", "visual effects", "post production", "effects"]

/-- JS `String.prototype.toLowerCase`, restricted to the ASCII range (the
only range the classifier's keywords exercise). -/
def jsToLowerCase (s : String) : String :=
  ⟨s.data.map Char.toLower⟩

/-- The TypeError thrown by `description.toLowerCase()` when `description`
is `undefined`. -/
def toLowerCaseTypeError : String :=
  "Cannot read properties of undefined (reading 'toLowerCase')"

/-- `classifyVFXNeeds(description, budget)` (`backstage.js` lines 6–18).
The `budget` parameter is declared by the source but never read.  A missing
(`undefined`) description makes `description.toLowerCase()` throw, modelled
as `Except.error`. -/
def classifyVFXNeeds (description : Option String) (budget : Option String) :
    Except String String :=
  match description with
  | none => .error toLowerCaseTypeError
  | some descr =>
    let text := jsToLowerCase descr
    if extremeKeywords.any (fun kw => strIncludes text kw) then .ok "Extreme"
    else if highKeywords.any (fun kw => strIncludes text kw) then .ok "High"
    else if mediumKeywords.any (fun kw => strIncludes text kw) then .ok "Medium"
    else .ok "Low"

/-- A raw listing as consumed by the `scrape` loop (`backstage.js`
lines 88–122): the fields the loop reads.  `description` and `budget` may be
missing (`undefined`). -/
structure RawItem where
  title : String
  description : Option String
  budget : Option String
  location : String
  stage : String
  company : String
  postedDate : String
deriving DecidableEq, Repr

/-- A contact entry of a catalog project. -/
structure Contact where
  name : String
  role : String
  email : String
deriving DecidableEq, Repr

/-- A classified catalog entry, with the fields built by the `scrape` loop
(`backstage.js` lines 92–119). -/
structure Project where
  id : Nat
  title : String
  tier : String
  budget : Option String
  vfxNeeds : String
  vfxNeedsSource : String
  stage : String
  source : String
  company : String
  description : Option String
  timeline : String
  location : String
  vfxBudget : String
  shotCount : String
  contacts : List Contact
  crossSourceData : List (String × String)
  scrapedAt : String
  postedDate : String
deriving DecidableEq, Repr

/-- Build one catalog project from a raw item, its classification and tier
(`backstage.js` lines 92–119).  `id` abstracts the nondeterministic
`Date.now() + Math.random()`; `now` abstracts `new Date().toISOString()`. -/
def mkProject (item : RawItem) (vfxNeeds tier : String) (id : Nat) (now : String) :
    Project :=
  { id := id
    title := item.title
    tier := tier
    budget := item.budget
    vfxNeeds := vfxNeeds
    vfxNeedsSource :=
      "Backstage posting: " ++ vfxNeeds ++ " needs based on project description and scope"
    stage := item.stage
    source := "Backstage"
    company := item.company
    description := item.description
    timeline := "Contact for details"
    location := item.location
    vfxBudget := "TBD"
    shotCount := "TBD"
    contacts := [⟨"Contact via Backstage", "Producer", "Apply through platform"⟩]
    crossSourceData := [("backstage", item.description.getD "")]
    scrapedAt := now
    postedDate := item.postedDate }

/-- The per-batch processing loop of `scrape` (`backstage.js` lines 88–122):
classify each item in order and collect the built projects.  There is no
per-item error recovery in the source: a classification throw propagates and
aborts the whole batch (the surrounding `try`/`catch` re-throws).  `idOf`
abstracts the fresh-id generator, `now` the scrape timestamp. -/
def processItems (idOf : Nat → Nat) (now : String) :
    Nat → List RawItem → Except String (List Project)
  | _, [] => .ok []
  | i, item :: rest =>
    match classifyVFXNeeds item.description item.budget with
    | .error e => .error e
    | .ok vfxNeeds =>
      let tier := determineTier item.budget
      match processItems idOf now (i + 1) rest with
      | .error e => .error e
      | .ok ps => .ok (mkProject item vfxNeeds tier (idOf i) now :: ps)

/-- The whole batch, starting at index 0. -/
def processBatch (idOf : Nat → Nat) (now : String) (items : List RawItem) :
    Except String (List Project) :=
  processItems idOf now 0 items

/-- The `newProjects.forEach` merge loop of the scrape handler (`server.js`
lines 158–164): membership is tested against `existingProjects` (the
pre-merge catalog), and a new project is pushed onto the accumulator when no
pre-merge entry has its title. -/
def mergeLoop (existing : List Project) (acc : List Project) :
    List Project → List Project
  | [] => acc
  | p :: rest =>
    match existing.find? (fun q => q.title == p.title) with
    | some _ => mergeLoop existing acc rest
    | none => mergeLoop existing (acc ++ [p]) rest

/-- `mergedProjects = [...existingProjects]` followed by the merge loop
(`server.js` lines 158–164). -/
def mergeProjects (existing newProjects : List Project) : List Project :=
  mergeLoop existing existing newProjects

/-- The number of incoming projects actually appended by the merge loop:
those whose title is absent from the pre-merge catalog. -/
def addedCount (existing newProjects : List Project) : Nat :=
  (newProjects.filter
    (fun p => (existing.find? (fun q => q.title == p.title)).isNone)).length

/-- One source's status record (`server.js` lines 24–29): `lastScrape`,
`projectCount`, `status`. -/
structure SourceStatus where
  lastScrape : Option String
  projectCount : Nat
  status : String
deriving DecidableEq, Repr

/-- A partial update object as passed to `updateSourceStatus`; `none` means
the field is absent from the update. -/
structure StatusUpdate where
  lastScrape : Option (Option String)
  projectCount : Option Nat
  status : Option String
deriving DecidableEq, Repr

/-- `updateSourceStatus` (`server.js` lines 79–87): the object spread
`{ ...sourcesCache[sourceName], ...updates }` — fields present in the update
override, all others are kept. -/
def updateSourceStatus (s : SourceStatus) (u : StatusUpdate) : SourceStatus :=
  { lastScrape := u.lastScrape.getD s.lastScrape
    projectCount := u.projectCount.getD s.projectCount
    status := u.status.getD s.status }

/-- The JSON body sent on scrape success (`server.js` lines 175–180). -/
structure ScrapeResponse where
  success : Bool
  projectsAdded : Nat
  totalProjects : Nat
  source : String
deriving DecidableEq, Repr

/-- The handler's HTTP outcome: `200` with a success body, or `500` with an
error message. -/
inductive ScrapeResult where
  | ok : ScrapeResponse → ScrapeResult
  | err : String → ScrapeResult
deriving DecidableEq, Repr

/-- The `POST /api/scrape/:source` handler (`server.js` lines 140–187) on a
given source: set the status to `scraping` with a fresh `lastScrape`, run
the adapter, then either merge and report success (status `active`,
`projectCount := newProjects.length`) or catch the adapter's throw (status
`error`, nothing else updated).  Persistence is best-effort in the source
and does not affect the in-memory state modelled here. -/
def scrapeHandler (catalog : List Project) (st : SourceStatus)
    (adapter : Except String (List Project)) (now : String) (sourceName : String) :
    List Project × SourceStatus × ScrapeResult :=
  let st1 := updateSourceStatus st ⟨some (some now), none, some "scraping"⟩
  match adapter with
  | .error e =>
    (catalog, updateSourceStatus st1 ⟨none, none, some "error"⟩, .err e)
  | .ok newProjects =>
    let merged := mergeProjects catalog newProjects
    let st2 := updateSourceStatus st1 ⟨none, some newProjects.length, some "active"⟩
    (merged, st2, .ok ⟨true, newProjects.length, merged.length, sourceName⟩)

/-- The decimal digit character with value `d`. -/
def digitChar (d : Fin 10) : Char := Char.ofNat (48 + d.val)

/-- A budget string of the shape `$<digits><suffix>`, e.g. `$80K`, `$15M`. -/
def dollarStr (ds : List (Fin 10)) (suffix : Char) : String :=
  ⟨'$' :: (ds.map digitChar ++ [suffix])⟩

/-- The tier thresholds as the spec words them, on the normalized
thousands-of-dollars magnitude: `≥ 10000` (that is `≥ $10M`) tier1,
`≥ 1000` (`≥ $1M`) tier2, `≥ 100` (`≥ $100K`) tier3, below that tier4. -/
def specTierOfThousands (t : Nat) : String :=
  if 10000 ≤ t then "tier1"
  else if 1000 ≤ t then "tier2"
  else if 100 ≤ t then "tier3"
  else "tier4"

/-- Ordinal rank of a tier string, larger = bigger budget class. -/
def tierRank (t : String) : Nat :=
  if t = "tier1" then 4
  else if t = "tier2" then 3
  else if t = "tier3" then 2
  else 1

/-- A concrete raw listing (titles and texts as in the adapter's data). -/
def itemSciFi : RawItem :=
  { title := "Sci-Fi Feature Film - VFX Heavy"
    description := some "extensive VFX work with creature design and 500+ shots"
    budget := some "$15M"
    location := "Los Angeles, CA"
    stage := "Pre-Production"
    company := "Independent Studio"
    postedDate := "2026-01-01" }

/-- A raw listing with a missing (`undefined`) description. -/
def itemNoDescription : RawItem :=
  { title := "Horror Short Film"
    description := none
    budget := some "$250K"
    location := "New York, NY"
    stage := "Development"
    company := "Indie Productions"
    postedDate := "2026-01-02" }

/-- A concrete raw listing with a distinct title. -/
def itemCommercial : RawItem :=
  { title := "Commercial - Tech Brand"
    description := some "motion graphics"
    budget := some "$80K"
    location := "Remote"
    stage := "Production"
    company := "Ad Agency"
    postedDate := "2026-01-03" }

/-- The sci-fi listing as first classified into the catalog. -/
def projSciFi : Project := mkProject itemSciFi "Extreme" "tier1" 1 "2026-01-01T10:00:00Z"

/-- The same listing re-scraped later: identical title, fresh id and
timestamp. -/
def projSciFiAgain : Project := mkProject itemSciFi "Extreme" "tier1" 2 "2026-01-02T10:00:00Z"

/-- The commercial listing classified into the catalog. -/
def projCommercial : Project := mkProject itemCommercial "Low" "tier4" 3 "2026-01-03T10:00:00Z"

/-- The titles of a project list are pairwise distinct (the catalog
deduplication invariant of the spec). -/
def titlesDistinct (l : List Project) : Prop :=
  (l.map Project.title).Nodup

instance (l : List Project) : Decidable (titlesDistinct l) :=
  List.nodupDecidable (l.map Project.title)

/-! ## Sanity checks on concrete budgets -/

example : determineTier (some "$15M") = "tier1" := by decide
example : determineTier (some "$250K") = "tier3" := by decide
example : determineTier (some "$80K") = "tier4" := by decide
example : determineTier (some "TBD") = "tier3" := by decide
example : determineTier none = "tier3" := by decide
example : determineTier (some "negotiable") = "tier4" := by decide
example : determineTier (some "Infinity") = "tier1" := by decide
example : determineTier (some "$1,500K") = "tier2" := by decide
example : determineTier (some "$0.5M") = "tier3" := by decide
example : determineTier (some "$1M") = "tier2" := by decide
example : determineTier (some "$100K") = "tier3" := by decide
example : determineTier (some "$99K") = "tier4" := by decide
example : determineTier (some "$10M") = "tier1" := by decide

/-! ## Merge-engine lemmas -/

/-- The merge loop appends exactly the incoming projects whose title is
absent from the pre-merge catalog, in input order. -/
theorem mergeLoop_eq_append_filter (existing : List Project) :
    ∀ (ps acc : List Project),
      mergeLoop existing acc ps =
        acc ++ ps.filter
          (fun p => (existing.find? (fun q => q.title == p.title)).isNone) := by
  intro ps
  induction ps with
  | nil => intro acc; simp [mergeLoop]
  | cons p rest ih =>
    intro acc
    unfold mergeLoop
    cases h : existing.find? (fun q => q.title == p.title) with
    | some q => simp [h, ih, List.filter_cons]
    | none => simp [h, ih, List.filter_cons]

theorem mergeProjects_eq (existing newProjects : List Project) :
    mergeProjects existing newProjects =
      existing ++ newProjects.filter
        (fun p => (existing.find? (fun q => q.title == p.title)).isNone) := by
  unfold mergeProjects
  exact mergeLoop_eq_append_filter existing newProjects existing

theorem addedCount_eq_length_diff (existing newProjects : List Project) :
    (mergeProjects existing newProjects).length =
      existing.length + addedCount existing newProjects := by
  rw [mergeProjects_eq]
  simp [addedCount]

/-- After one merge, every incoming title is present in the merged catalog. -/
theorem find?_mergeProjects_isSome (existing newProjects : List Project)
    (p : Project) (hp : p ∈ newProjects) :
    ((mergeProjects existing newProjects).find?
      (fun q => q.title == p.title)).isSome = true := by
  rw [mergeProjects_eq, List.find?_isSome]
  cases h : existing.find? (fun q => q.title == p.title) with
  | some q =>
    have hq := List.find?_some h
    have hqmem := List.mem_of_find?_eq_some h
    exact ⟨q, List.mem_append_left _ hqmem, hq⟩
  | none =>
    refine ⟨p, List.mem_append_right _ ?_, by simp⟩
    rw [List.mem_filter]
    exact ⟨hp, by simp [h]⟩

/-- C4: Merge is idempotent with respect to title: re-running merge with the
same incoming batch against the output of the first merge leaves the catalog
unchanged and appends nothing. -/
theorem mergeProjects_idempotent (C P : List Project) :
    mergeProjects (mergeProjects C P) P = mergeProjects C P ∧
      addedCount (mergeProjects C P) P = 0 := by
  have hfilter :
      P.filter
        (fun p => ((mergeProjects C P).find? (fun q => q.title == p.title)).isNone) =
        [] := by
    rw [List.filter_eq_nil_iff]
    intro p hp
    have := find?_mergeProjects_isSome C P p hp
    simp [Option.isNone, Option.isSome] at this ⊢
    cases h : (mergeProjects C P).find? (fun q => q.title == p.title) with
    | some q => simp
    | none => rw [h] at this; simp at this
  constructor
  · rw [mergeProjects_eq (mergeProjects C P) P, hfilter, List.append_nil]
  · rw [addedCount, hfilter]
    rfl

/-- C2 counterexample: from the empty catalog (whose titles are trivially
pairwise distinct), merging a batch that contains two raw postings with the
same title yields a catalog with a duplicated title — the loop tests
membership only against the pre-merge catalog. -/
theorem merge_duplicate_title_counterexample :
    titlesDistinct ([] : List Project) ∧
      mergeProjects [] [projSciFi, projSciFiAgain] = [projSciFi, projSciFiAgain] ∧
      ¬ titlesDistinct (mergeProjects [] [projSciFi, projSciFiAgain]) := by
  refine ⟨by decide, by decide, ?_⟩
  intro h
  rw [show mergeProjects [] [projSciFi, projSciFiAgain] = [projSciFi, projSciFiAgain]
    from by decide] at h
  revert h
  decide

/-- C2 (amended): when the titles of the pre-merge catalog are pairwise
distinct and the titles of the incoming batch are pairwise distinct, the
merged catalog has pairwise-distinct titles. -/
theorem merge_titlesDistinct (C P : List Project)
    (hC : titlesDistinct C) (hP : titlesDistinct P) :
    titlesDistinct (mergeProjects C P) := by
  rw [titlesDistinct, mergeProjects_eq, List.map_append, List.nodup_append]
  refine ⟨hC, ?_, ?_⟩
  · exact hP.sublist ((List.filter_sublist P).map Project.title)
  · rw [List.disjoint_left]
    intro t htC htF
    obtain ⟨q, hqC, hqt⟩ := List.mem_map.mp htC
    obtain ⟨p, hpF, hpt⟩ := List.mem_map.mp htF
    have hmem := List.mem_filter.mp hpF
    have hnone : C.find? (fun x => x.title == p.title) = none := by
      have := hmem.2
      cases h : C.find? (fun x => x.title == p.title) with
      | some _ => rw [h] at this; simp at this
      | none => rfl
    have := List.find?_eq_none.mp hnone q hqC
    simp only [beq_iff_eq] at this
    exact this (hqt.trans hpt.symm)

/-- C2 witness inputs: a concrete catalog and batch with distinct titles. -/
theorem merge_titlesDistinct_witness :
    titlesDistinct [projSciFi] ∧ titlesDistinct [projCommercial] ∧
      titlesDistinct (mergeProjects [projSciFi] [projCommercial]) :=
  ⟨by decide, by decide, merge_titlesDistinct [projSciFi] [projCommercial] (by decide) (by decide)⟩

/-- C9: the VFX-needs classification ignores its budget argument — the
result depends only on the description. -/
theorem classifyVFXNeeds_ignores_budget (d : Option String) (b₁ b₂ : Option String) :
    classifyVFXNeeds d b₁ = classifyVFXNeeds d b₂ := rfl

/-- C6: on adapter success the source's status becomes `active` and its
`projectCount` is set to the number of projects the adapter returned in this
cycle — the adapter yield, not the merged catalog size and not the number of
projects surviving deduplication. -/
theorem scrapeHandler_success_status (catalog : List Project) (st : SourceStatus)
    (newProjects : List Project) (now sourceName : String) :
    (scrapeHandler catalog st (.ok newProjects) now sourceName).2.1.status = "active" ∧
      (scrapeHandler catalog st (.ok newProjects) now sourceName).2.1.projectCount =
        newProjects.length := by
  constructor <;> rfl

/-- C7: on adapter failure the source's status ends as `error`, its
`projectCount` keeps its pre-cycle value, `lastScrape` keeps the value set at
scrape start, and the catalog is untouched. -/
theorem scrapeHandler_failure_frame (catalog : List Project) (st : SourceStatus)
    (e : String) (now sourceName : String) :
    (scrapeHandler catalog st (.error e) now sourceName).2.1.status = "error" ∧
      (scrapeHandler catalog st (.error e) now sourceName).2.1.projectCount =
        st.projectCount ∧
      (scrapeHandler catalog st (.error e) now sourceName).2.1.lastScrape = some now ∧
      (scrapeHandler catalog st (.error e) now sourceName).1 = catalog := by
  refine ⟨rfl, rfl, rfl, rfl⟩

/-- C1 (code bug): re-scraping a batch whose single title is already in the
catalog appends nothing (`addedCount = 0`, the merged catalog is unchanged),
yet the handler's response reports `projectsAdded = 1` — the handler returns
`newProjects.length`, the adapter yield, not the number of postings actually
appended. -/
theorem projectsAdded_reports_batch_size :
    addedCount [projSciFi] [projSciFiAgain] = 0 ∧
      mergeProjects [projSciFi] [projSciFiAgain] = [projSciFi] ∧
      (scrapeHandler [projSciFi] ⟨some "2026-01-01T10:00:00Z", 1, "active"⟩
          (.ok [projSciFiAgain]) "2026-01-02T10:00:00Z" "backstage").2.2 =
        .ok ⟨true, 1, 1, "backstage"⟩ := by
  refine ⟨by decide, by decide, by decide⟩

/-- C3 (code bug): a batch whose second item lacks a description makes the
whole batch-processing loop throw — no project is produced, the remaining
items are not processed, and the error propagates out of the scrape cycle
(the handler then takes its failure path).  Without the bad item, the same
batch succeeds. -/
theorem processBatch_missing_description_aborts :
    processBatch (fun i => i) "2026-01-05T10:00:00Z"
        [itemSciFi, itemNoDescription, itemCommercial] =
      .error toLowerCaseTypeError ∧
    processBatch (fun i => i) "2026-01-05T10:00:00Z"
        [itemSciFi, itemCommercial] =
      .ok [mkProject itemSciFi "Extreme" "tier1" 0 "2026-01-05T10:00:00Z",
           mkProject itemCommercial "Low" "tier4" 1 "2026-01-05T10:00:00Z"] := by
  exact ⟨rfl, rfl⟩

/-! ## Budget-tier lemmas -/

/-- C8: `determineTier` of `"TBD"` and of a missing budget both give the
`tier3` unknown-budget default, while any budget from which a finite numeric
value below 100 (thousands of dollars, i.e. $100K) is extracted gives
`tier4`. -/
theorem determineTier_unknown_default :
    determineTier none = "tier3" ∧ determineTier (some "TBD") = "tier3" ∧
      ∀ (b : String) (d : Dec10), b ≠ "" → b ≠ "TBD" →
        budgetAmount b = JsFloat.val d → d.num < 100 * (10 : Int) ^ d.exp →
        determineTier (some b) = "tier4" := by
  refine ⟨rfl, rfl, ?_⟩
  intro b d hne htbd hamt hlt
  have hpow : (0 : Int) < 10 ^ d.exp := pow_pos (by norm_num) d.exp
  have h100 : JsFloat.geq (JsFloat.val d) 100 = false := by
    simp only [JsFloat.geq, decide_eq_false_iff_not, not_le]
    exact hlt
  have h1000 : JsFloat.geq (JsFloat.val d) 1000 = false := by
    simp only [JsFloat.geq, decide_eq_false_iff_not, not_le]
    nlinarith
  have h10000 : JsFloat.geq (JsFloat.val d) 10000 = false := by
    simp only [JsFloat.geq, decide_eq_false_iff_not, not_le]
    nlinarith
  simp [determineTier, hne, htbd, hamt, h100, h1000, h10000]

/-- C8 witness: at the concrete budget `"$80K"` the extracted value is 80
(below $100K) and the tier is `tier4`. -/
theorem determineTier_unknown_default_witness :
    budgetAmount "$80K" = JsFloat.val ⟨80, 0⟩ ∧
      (80 : Int) < 100 * (10 : Int) ^ (0 : Nat) ∧
      determineTier (some "$80K") = "tier4" :=
  ⟨by decide, by decide,
    determineTier_unknown_default.2.2 "$80K" ⟨80, 0⟩ (by decide) (by decide)
      (by decide) (by decide)⟩

/-- A list none of whose elements satisfy `p` has an empty `takeWhile`. -/
theorem takeWhile_eq_nil_of_all_false {p : Char → Bool} :
    ∀ {xs : List Char}, (∀ c ∈ xs, p c = false) → xs.takeWhile p = []
  | [], _ => rfl
  | c :: t, h => by
    have := h c (List.mem_cons_self c t)
    simp [List.takeWhile_cons, this]

/-- A digit-free input has no valid decimal-literal prefix. -/
theorem jsParseAfterSign_eq_none_of_no_digits (cs : List Char)
    (h : ∀ c ∈ cs, c.isDigit = false) : jsParseAfterSign cs = none := by
  unfold jsParseAfterSign
  split
  · rename_i rest
    have hrest : ∀ c ∈ rest, c.isDigit = false := fun c hc =>
      h c (List.mem_cons_of_mem _ hc)
    simp [takeWhile_eq_nil_of_all_false hrest]
  · simp [takeWhile_eq_nil_of_all_false h]

/-- A prefix occurrence is a contiguous occurrence. -/
theorem containsSeq_of_isPrefixOf {pat l : List Char}
    (h : pat.isPrefixOf l = true) : containsSeq pat l = true := by
  cases l with
  | nil =>
    cases pat with
    | nil => rfl
    | cons a t => simp [List.isPrefixOf] at h
  | cons c t => simp [containsSeq, h]

/-- A contiguous occurrence survives prepending an element. -/
theorem containsSeq_cons_of_containsSeq {pat : List Char} {c : Char} {l : List Char}
    (h : containsSeq pat l = true) : containsSeq pat (c :: l) = true := by
  simp [containsSeq, h]

/-- A contiguous occurrence in `l.dropWhile p` is one in `l`. -/
theorem containsSeq_of_containsSeq_dropWhile {pat : List Char} {p : Char → Bool} :
    ∀ {l : List Char}, containsSeq pat (l.dropWhile p) = true → containsSeq pat l = true := by
  intro l
  induction l with
  | nil => simp [List.dropWhile]
  | cons c t ih =>
    rw [List.dropWhile_cons]
    by_cases hc : p c = true
    · rw [if_pos hc]
      intro h
      exact containsSeq_cons_of_containsSeq (ih h)
    · rw [if_neg hc]
      exact fun h => h

/-- C10 (amended): a non-empty budget string other than `"TBD"` containing no
digits — and whose stripped form does not contain the character sequence
`Infinity` — parses to `NaN`, every threshold comparison is false, and the
tier falls through to `tier4` (not the `tier3` unknown-budget default). -/
theorem determineTier_no_digits_tier4 (b : String)
    (hne : b ≠ "") (htbd : b ≠ "TBD")
    (hdig : ∀ c ∈ b.data, c.isDigit = false)
    (hinf : containsSeq infinityChars (stripBudget b).data = false) :
    determineTier (some b) = "tier4" := by
  have hdigS : ∀ c ∈ (stripBudget b).data, c.isDigit = false := by
    intro c hc
    exact hdig c (List.mem_of_mem_filter hc)
  have hdl_mem : ∀ c ∈ (stripBudget b).data.dropWhile jsIsWhitespace, c.isDigit = false := by
    intro c hc
    exact hdigS c ((List.dropWhile_sublist _).mem hc)
  have hdl_cont :
      containsSeq infinityChars ((stripBudget b).data.dropWhile jsIsWhitespace) = false := by
    cases hcs : containsSeq infinityChars ((stripBudget b).data.dropWhile jsIsWhitespace) with
    | false => rfl
    | true => rw [containsSeq_of_containsSeq_dropWhile hcs] at hinf; exact hinf
  have hparse : jsParseFloat (stripBudget b) = .nan := by
    unfold jsParseFloat
    split
    · rename_i rest hrest
      have hpre : infinityChars.isPrefixOf rest = false := by
        cases hp : infinityChars.isPrefixOf rest with
        | false => rfl
        | true =>
          rw [hrest] at hdl_cont
          rw [containsSeq_cons_of_containsSeq (containsSeq_of_isPrefixOf hp)] at hdl_cont
          exact hdl_cont
      have hrd : ∀ c ∈ rest, c.isDigit = false := by
        intro c hc
        have := hdl_mem c (by rw [hrest]; exact List.mem_cons_of_mem _ hc)
        exact this
      simp [hpre, jsParseAfterSign_eq_none_of_no_digits rest hrd]
    · rename_i rest hrest
      have hpre : infinityChars.isPrefixOf rest = false := by
        cases hp : infinityChars.isPrefixOf rest with
        | false => rfl
        | true =>
          rw [hrest] at hdl_cont
          rw [containsSeq_cons_of_containsSeq (containsSeq_of_isPrefixOf hp)] at hdl_cont
          exact hdl_cont
      have hrd : ∀ c ∈ rest, c.isDigit = false := by
        intro c hc
        have := hdl_mem c (by rw [hrest]; exact List.mem_cons_of_mem _ hc)
        exact this
      simp [hpre, jsParseAfterSign_eq_none_of_no_digits rest hrd]
    · have hpre :
          infinityChars.isPrefixOf ((stripBudget b).data.dropWhile jsIsWhitespace) = false := by
        cases hp : infinityChars.isPrefixOf ((stripBudget b).data.dropWhile jsIsWhitespace) with
        | false => rfl
        | true => rw [containsSeq_of_isPrefixOf hp] at hdl_cont; exact hdl_cont
      simp [hpre, jsParseAfterSign_eq_none_of_no_digits _ hdl_mem]
  simp [determineTier, hne, htbd, budgetAmount, hparse, JsFloat.mulPos, JsFloat.geq]

/-- C10 witness: `"negotiable"` — non-empty, not `"TBD"`, digit-free — gets
`tier4`. -/
theorem determineTier_no_digits_tier4_witness :
    ("negotiable" ≠ "") ∧ (∀ c ∈ ("negotiable" : String).data, c.isDigit = false) ∧
      determineTier (some "negotiable") = "tier4" :=
  ⟨by decide, by decide,
    determineTier_no_digits_tier4 "negotiable" (by decide) (by decide) (by decide) (by decide)⟩

/-- C10 counterexample: `"Infinity"` is non-empty, differs from `"TBD"` and
contains no digits, yet `parseFloat` reads it as `Infinity`, the `>= $10M`
comparison succeeds, and `determineTier` returns `tier1`, not `tier4`. -/
theorem determineTier_infinity_counterexample :
    ("Infinity" ≠ "") ∧ ("Infinity" ≠ "TBD") ∧
      (∀ c ∈ ("Infinity" : String).data, c.isDigit = false) ∧
      determineTier (some "Infinity") = "tier1" := by
  refine ⟨by decide, by decide, by decide, by decide⟩

theorem digitChar_isDigit (d : Fin 10) : (digitChar d).isDigit = true := by
  fin_cases d <;> decide

theorem digitChar_not_ws (d : Fin 10) : jsIsWhitespace (digitChar d) = false := by
  fin_cases d <;> decide

theorem digitChar_kept (d : Fin 10) :
    ¬(digitChar d = '$' ∨ digitChar d = ',' ∨ digitChar d = 'K') := by
  fin_cases d <;> decide

theorem digitChar_ne_M (d : Fin 10) : digitChar d ≠ 'M' := by
  fin_cases d <;> decide

theorem digitChar_ne_of_not_digit (d : Fin 10) (c : Char) (hc : c.isDigit = false) :
    digitChar d ≠ c := by
  intro h
  rw [← h, digitChar_isDigit d] at hc
  exact Bool.noConfusion hc

/-- Splitting a digit block followed by a non-digit remainder. -/
theorem span_digits_append (rest : List Char)
    (htw : rest.takeWhile Char.isDigit = []) (hdw : rest.dropWhile Char.isDigit = rest) :
    ∀ ds : List (Fin 10),
      (ds.map digitChar ++ rest).takeWhile Char.isDigit = ds.map digitChar ∧
      (ds.map digitChar ++ rest).dropWhile Char.isDigit = rest := by
  intro ds
  induction ds with
  | nil => simpa only [List.map_nil, List.nil_append] using ⟨htw, hdw⟩
  | cons d t ih =>
    simp [List.takeWhile_cons, List.dropWhile_cons, digitChar_isDigit d, ih]

/-- The digit-block parse: the decimal literal read from
`digits ++ rest` — `rest` starting with no digit, no dot, and carrying no
exponent — is the digits' value. -/
theorem jsParseAfterSign_digits (ds : List (Fin 10)) (hds : ds ≠ [])
    (rest : List Char)
    (htw : rest.takeWhile Char.isDigit = []) (hdw : rest.dropWhile Char.isDigit = rest)
    (hdot : ∀ t, rest ≠ '.' :: t)
    (hexp : ∀ m : Dec10, applyExp m rest = m) :
    jsParseAfterSign (ds.map digitChar ++ rest) =
      some (mantissaVal (ds.map digitChar) []) := by
  obtain ⟨d, t, rfl⟩ : ∃ d t, ds = d :: t := by
    cases ds with
    | nil => exact absurd rfl hds
    | cons d t => exact ⟨d, t, rfl⟩
  have hspan := span_digits_append rest htw hdw (d :: t)
  unfold jsParseAfterSign
  split
  · rename_i r heq
    rw [List.map_cons, List.cons_append, List.cons.injEq] at heq
    exact absurd heq.1 (digitChar_ne_of_not_digit d '.' (by decide))
  · rw [List.map_cons, List.cons_append] at hspan ⊢
    rw [hspan.1, hspan.2]
    simp only [List.isEmpty_cons, Bool.false_eq_true, if_false]
    rw [hexp]

/-- `parseFloat` of a string of digits followed by a non-numeric remainder
(such as the `M` left by the strip step) reads the digits' value. -/
theorem jsParseFloat_digits (ds : List (Fin 10)) (hds : ds ≠ [])
    (rest : List Char)
    (htw : rest.takeWhile Char.isDigit = []) (hdw : rest.dropWhile Char.isDigit = rest)
    (hdot : ∀ t, rest ≠ '.' :: t)
    (hexp : ∀ m : Dec10, applyExp m rest = m)
    (s : String) (hs : s.data = ds.map digitChar ++ rest) :
    jsParseFloat s = .val (mantissaVal (ds.map digitChar) []) := by
  obtain ⟨d, t, rfl⟩ : ∃ d t, ds = d :: t := by
    cases ds with
    | nil => exact absurd rfl hds
    | cons d t => exact ⟨d, t, rfl⟩
  unfold jsParseFloat
  rw [hs, List.map_cons, List.cons_append, List.dropWhile_cons,
    digitChar_not_ws d]
  simp only [Bool.false_eq_true, if_false]
  split
  · rename_i r heq
    rw [List.cons.injEq] at heq
    exact absurd heq.1 (digitChar_ne_of_not_digit d '+' (by decide))
  · rename_i r heq
    rw [List.cons.injEq] at heq
    exact absurd heq.1 (digitChar_ne_of_not_digit d '-' (by decide))
  · have hpre : infinityChars.isPrefixOf
        (digitChar d :: (List.map digitChar t ++ rest)) = false := by
      show (('I' == digitChar d) && _) = false
      have : ('I' == digitChar d) = false := by
        rw [beq_eq_false_iff_ne]
        exact (digitChar_ne_of_not_digit d 'I' (by decide)).symm
      rw [this, Bool.false_and]
    rw [hpre]
    simp only [Bool.false_eq_true, if_false]
    rw [show (digitChar d :: (List.map digitChar t ++ rest)) =
        ((d :: t).map digitChar ++ rest) from by simp,
      jsParseAfterSign_digits (d :: t) (by simp) rest htw hdw hdot hexp]
    rfl

theorem filter_strip_map_digits (ds : List (Fin 10)) :
    (ds.map digitChar).filter (fun c => ¬(c = '$' ∨ c = ',' ∨ c = 'K')) =
      ds.map digitChar := by
  rw [List.filter_eq_self]
  intro c hc
  obtain ⟨d, _, rfl⟩ := List.mem_map.mp hc
  simpa using digitChar_kept d

/-- Stripping `$`, `,`, `K` from `$<digits>K` leaves exactly the digits. -/
theorem stripBudget_dollarK (ds : List (Fin 10)) :
    (stripBudget (dollarStr ds 'K')).data = ds.map digitChar ++ [] := by
  show ('$' :: (ds.map digitChar ++ ['K'])).filter
      (fun c => ¬(c = '$' ∨ c = ',' ∨ c = 'K')) = ds.map digitChar ++ []
  rw [List.filter_cons, List.filter_append, filter_strip_map_digits]
  simp

/-- Stripping `$`, `,`, `K` from `$<digits>M` leaves the digits and the `M`. -/
theorem stripBudget_dollarM (ds : List (Fin 10)) :
    (stripBudget (dollarStr ds 'M')).data = ds.map digitChar ++ ['M'] := by
  show ('$' :: (ds.map digitChar ++ ['M'])).filter
      (fun c => ¬(c = '$' ∨ c = ',' ∨ c = 'K')) = ds.map digitChar ++ ['M']
  rw [List.filter_cons, List.filter_append, filter_strip_map_digits]
  simp

theorem includesM_dollarK (ds : List (Fin 10)) :
    includesM (dollarStr ds 'K') = false := by
  show (('$' :: (ds.map digitChar ++ ['K'])).contains 'M') = false
  rw [Bool.eq_false_iff]
  intro hc
  have hmem : 'M' ∈ '$' :: (ds.map digitChar ++ ['K']) := List.elem_iff.mp hc
  rcases List.mem_cons.mp hmem with h | h
  · exact absurd h (by decide)
  · rcases List.mem_append.mp h with h | h
    · obtain ⟨d, _, hd⟩ := List.mem_map.mp h
      exact absurd hd (digitChar_ne_M d)
    · exact absurd (List.mem_singleton.mp h) (by decide)

theorem includesM_dollarM (ds : List (Fin 10)) :
    includesM (dollarStr ds 'M') = true := by
  show (('$' :: (ds.map digitChar ++ ['M'])).contains 'M') = true
  simp

/-- The mantissa of a pure digit block. -/
theorem mantissaVal_digits (xs : List Char) :
    mantissaVal xs [] = ⟨(digitsToNat xs : Int), 0⟩ := by
  simp [mantissaVal, digitsToNat]

theorem dollarStr_ne_empty (ds : List (Fin 10)) (suffix : Char) :
    dollarStr ds suffix ≠ "" := by
  intro h
  exact List.noConfusion (congrArg String.data h)

theorem dollarStr_ne_TBD (ds : List (Fin 10)) (suffix : Char) :
    dollarStr ds suffix ≠ "TBD" := by
  intro h
  have h2 : ('$' :: (ds.map digitChar ++ [suffix])) = ['T', 'B', 'D'] :=
    congrArg String.data h
  rw [List.cons.injEq] at h2
  exact absurd h2.1 (by decide)

/-- `determineTier` on `$<digits>K` follows the spec's thousands
thresholds, with the digits read as the amount in thousands. -/
theorem determineTier_dollarK (ds : List (Fin 10)) (hds : ds ≠ []) :
    determineTier (some (dollarStr ds 'K')) =
      specTierOfThousands (digitsToNat (ds.map digitChar)) := by
  have hparse := jsParseFloat_digits ds hds []
    rfl rfl (fun t h => List.noConfusion h) (fun m => rfl)
    (stripBudget (dollarStr ds 'K')) (stripBudget_dollarK ds)
  rw [mantissaVal_digits] at hparse
  have hb : budgetAmount (dollarStr ds 'K') =
      JsFloat.val ⟨(digitsToNat (ds.map digitChar) : Int) * 1, 0⟩ := by
    rw [budgetAmount, includesM_dollarK, hparse]
    rfl
  have b1 : (decide ((10000 : Int) * (10 : Int) ^ (0 : Nat) ≤
      (digitsToNat (ds.map digitChar) : Int) * 1)) =
      decide (10000 ≤ digitsToNat (ds.map digitChar)) := by
    rw [decide_eq_decide]
    push_cast
    omega
  have b2 : (decide ((1000 : Int) * (10 : Int) ^ (0 : Nat) ≤
      (digitsToNat (ds.map digitChar) : Int) * 1)) =
      decide (1000 ≤ digitsToNat (ds.map digitChar)) := by
    rw [decide_eq_decide]
    push_cast
    omega
  have b3 : (decide ((100 : Int) * (10 : Int) ^ (0 : Nat) ≤
      (digitsToNat (ds.map digitChar) : Int) * 1)) =
      decide (100 ≤ digitsToNat (ds.map digitChar)) := by
    rw [decide_eq_decide]
    push_cast
    omega
  simp only [determineTier, hb, JsFloat.geq]
  rw [if_neg (not_or.mpr ⟨dollarStr_ne_empty ds 'K', dollarStr_ne_TBD ds 'K'⟩)]
  rw [b1, b2, b3]
  simp [specTierOfThousands]

/-- `determineTier` on `$<digits>M` follows the spec's thousands
thresholds, with the digits scaled by 1000 (millions to thousands). -/
theorem determineTier_dollarM (ds : List (Fin 10)) (hds : ds ≠ []) :
    determineTier (some (dollarStr ds 'M')) =
      specTierOfThousands (digitsToNat (ds.map digitChar) * 1000) := by
  have hparse := jsParseFloat_digits ds hds ['M']
    (by decide) (by decide)
    (fun t h => by
      rw [List.cons.injEq] at h
      exact absurd h.1 (by decide))
    (fun m => by simp [applyExp])
    (stripBudget (dollarStr ds 'M')) (stripBudget_dollarM ds)
  rw [mantissaVal_digits] at hparse
  have hb : budgetAmount (dollarStr ds 'M') =
      JsFloat.val ⟨(digitsToNat (ds.map digitChar) : Int) * 1000, 0⟩ := by
    rw [budgetAmount, includesM_dollarM, hparse]
    rfl
  have b1 : (decide ((10000 : Int) * (10 : Int) ^ (0 : Nat) ≤
      (digitsToNat (ds.map digitChar) : Int) * 1000)) =
      decide (10000 ≤ digitsToNat (ds.map digitChar) * 1000) := by
    rw [decide_eq_decide]
    push_cast
    omega
  have b2 : (decide ((1000 : Int) * (10 : Int) ^ (0 : Nat) ≤
      (digitsToNat (ds.map digitChar) : Int) * 1000)) =
      decide (1000 ≤ digitsToNat (ds.map digitChar) * 1000) := by
    rw [decide_eq_decide]
    push_cast
    omega
  have b3 : (decide ((100 : Int) * (10 : Int) ^ (0 : Nat) ≤
      (digitsToNat (ds.map digitChar) : Int) * 1000)) =
      decide (100 ≤ digitsToNat (ds.map digitChar) * 1000) := by
    rw [decide_eq_decide]
    push_cast
    omega
  simp only [determineTier, hb, JsFloat.geq]
  rw [if_neg (not_or.mpr ⟨dollarStr_ne_empty ds 'M', dollarStr_ne_TBD ds 'M'⟩)]
  rw [b1, b2, b3]
  simp [specTierOfThousands]

theorem tierRank_specTier_mono {a b : Nat} (h : a ≤ b) :
    tierRank (specTierOfThousands a) ≤ tierRank (specTierOfThousands b) := by
  unfold specTierOfThousands
  split_ifs <;> first | decide | (exfalso; omega)

/-- C5: on budget strings `$<digits>K` and `$<digits>M`, `determineTier`
matches the spec thresholds exactly ($100K, $1M, $10M, normalized to
thousands) and is monotonic non-decreasing in the amount for a fixed
suffix. -/
theorem determineTier_dollar_monotone (ds₁ ds₂ : List (Fin 10))
    (h₁ : ds₁ ≠ []) (h₂ : ds₂ ≠ []) :
    determineTier (some (dollarStr ds₁ 'K')) =
        specTierOfThousands (digitsToNat (ds₁.map digitChar)) ∧
      determineTier (some (dollarStr ds₁ 'M')) =
        specTierOfThousands (digitsToNat (ds₁.map digitChar) * 1000) ∧
      (digitsToNat (ds₁.map digitChar) ≤ digitsToNat (ds₂.map digitChar) →
        tierRank (determineTier (some (dollarStr ds₁ 'K'))) ≤
            tierRank (determineTier (some (dollarStr ds₂ 'K'))) ∧
          tierRank (determineTier (some (dollarStr ds₁ 'M'))) ≤
            tierRank (determineTier (some (dollarStr ds₂ 'M')))) := by
  refine ⟨determineTier_dollarK ds₁ h₁, determineTier_dollarM ds₁ h₁, ?_⟩
  intro hle
  rw [determineTier_dollarK ds₁ h₁, determineTier_dollarK ds₂ h₂,
    determineTier_dollarM ds₁ h₁, determineTier_dollarM ds₂ h₂]
  exact ⟨tierRank_specTier_mono hle, tierRank_specTier_mono (by omega)⟩

/-- C5 witness: `$80K` versus `$150K` — the smaller amount gets the lower
(or equal) tier, concretely `tier4 ≤ tier3`. -/
theorem determineTier_dollar_monotone_witness :
    determineTier (some (dollarStr [8, 0] 'K')) = "tier4" ∧
      determineTier (some (dollarStr [1, 5, 0] 'K')) = "tier3" ∧
      tierRank (determineTier (some (dollarStr [8, 0] 'K'))) ≤
        tierRank (determineTier (some (dollarStr [1, 5, 0] 'K'))) :=
  ⟨by decide, by decide,
    ((determineTier_dollar_monotone [8, 0] [1, 5, 0] (by decide) (by decide)).2.2
      (by decide)).1⟩
